import Mathlib

/-!
Verification development for the `page` picker orchestrator (files
`src/picker/main.rs` and `src/picker/context.rs`): a CLI bridge that opens
files as buffers inside a running neovim instance.

The Rust source is shallowly embedded below.  Pure computations (split-script
construction, context resolution, candidate filtering) become Lean functions;
the sequence of RPC calls issued by the orchestrator is modelled as an
explicit trace (`List Call`); the filesystem and the external content-type
classifier (`file` command) are passed in as explicit parameters (`Fs`);
panics (`expect` / `unreachable!`) are modelled as `Option.none`.
-/

namespace NvimPage

/-- Split-related CLI options, embedding the fields of `cli::SplitOptions`
used by `create_split_command` (main.rs).  The four ratio fields default to
`0` meaning "unset" (the Rust code tests them with `!= 0`); the four absolute
fields are `Option`s, as in the Rust struct. -/
structure SplitOptions where
  popup : Bool
  split_right : Nat
  split_left : Nat
  split_below : Nat
  split_above : Nat
  split_right_cols : Option Nat
  split_left_cols : Option Nat
  split_below_rows : Option Nat
  split_above_rows : Option Nat
deriving DecidableEq

/-- A `SplitOptions` value with every field unset. -/
def splitNone : SplitOptions :=
  { popup := false
    split_right := 0, split_left := 0, split_below := 0, split_above := 0
    split_right_cols := none, split_left_cols := none
    split_below_rows := none, split_above_rows := none }

/-- The CLI options consumed by the orchestrator (`cli::Options`), restricted
to the fields read by `context.rs` and `main.rs`. -/
structure Options where
  address : Option String
  files : List String
  recurse_depth : Option (Option Nat)
  follow : Bool
  pattern : Option String
  pattern_backwards : Option String
  keep : Bool
  keep_until_write : Bool
  back : Bool
  back_restore : Bool
  lua : Option String
  command : Option String
  open_non_text : Bool
  split : SplitOptions

/-- An `Options` value with everything unset: the CLI defaults. -/
def optionsNone : Options :=
  { address := none, files := [], recurse_depth := none
    follow := false, pattern := none, pattern_backwards := none
    keep := false, keep_until_write := false
    back := false, back_restore := false
    lua := none, command := none, open_non_text := false
    split := splitNone }

/-- Modelled from the spec: `Options::is_split_implied` lives in the CLI
module (`cli.rs`), which is not among the orchestration sources.  Per the
spec ("at least one split flag/size is present", the eight flags
`-r -l -u -d -R -L -U -D` named by the startup warning) it holds exactly
when one of the four ratio fields or four absolute fields is set. -/
def Options.is_split_implied (o : Options) : Bool :=
  o.split.split_right != 0 || o.split.split_left != 0 ||
  o.split.split_below != 0 || o.split.split_above != 0 ||
  o.split.split_right_cols.isSome || o.split.split_left_cols.isSome ||
  o.split.split_below_rows.isSome || o.split.split_above_rows.isSome

/-- `context::gather_env::FilesUsage`. -/
inductive FilesUsage where
  | RecursiveCurrentDir (recurse_depth : Nat)
  | LastModifiedFile
  | FilesProvided
deriving DecidableEq

/-- `context::gather_env::SplitUsage`. -/
inductive SplitUsage where
  | Enabled
  | Disabled
deriving DecidableEq

/-- Address resolution in `gather_env::enter` (context.rs:19-28): fall back
to `$NVIM_LISTEN_ADDRESS` when no `-a` was given, then treat an empty
address as unset. -/
def resolve_address (cli : Option String) (envNvimListen : Option String) :
    Option String :=
  let a := match cli with
    | none => envNvimListen
    | some x => some x
  match a with
  | some s => if s.isEmpty then none else some s
  | none => none

/-- Recurse-depth resolution (context.rs:34-38): explicit `-o N` gives `N`,
bare `-o` gives 1, absent gives 0. -/
def resolve_recurse_depth : Option (Option Nat) → Nat
  | some (some n) => n
  | some none => 1
  | none => 0

/-- Files-usage resolution (context.rs:30-41), mirroring the two mutating
assignments of `gather_env::enter`. -/
def resolve_files_usage (files : List String) (rd : Option (Option Nat)) :
    FilesUsage :=
  let fu := FilesUsage.FilesProvided
  let fu := if files.isEmpty then FilesUsage.LastModifiedFile else fu
  let d := resolve_recurse_depth rd
  if 0 < d then FilesUsage.RecursiveCurrentDir d else fu

/-- Split-usage resolution (context.rs:60-63): enabled only when an address
is set AND a split is implied.  (`open_files` in main.rs never reads this
field; see the C1 analysis below.) -/
def resolve_split_usage (opt : Options) : SplitUsage :=
  if opt.address.isSome && opt.is_split_implied then SplitUsage.Enabled
  else SplitUsage.Disabled

/-- The run context handed from `gather_env::enter` to `open_files`,
restricted to the fields `open_files` and the C1 analysis read
(`tmp_dir` and `pipe_buf_usage` are consumed only by the connection layer). -/
structure EnvContext where
  opt : Options
  files_usage : FilesUsage
  page_id : String
  split_usage : SplitUsage

/-- The ambient filesystem and external classifier, passed explicitly:
`pwdJoin` is `PWD.join` from `FileToOpen::new` (resolution against `$PWD`),
`isText` is the external `file`-command probe `is_text_file`, `mtimeOf` is
the `metadata().modified()` lookup, `walkEntries` is the result of the
depth-bounded contents-first `walkdir` traversal, and `dirEntries` is the
result of `std::fs::read_dir("./")` in enumeration order. -/
structure Fs where
  pwdJoin : String → String
  isText : String → Bool
  mtimeOf : String → Nat
  walkEntries : List String
  dirEntries : List String

/-- One RPC call issued over the neovim connection, in order.  `recv` marks
the suspension on `conn.rx.recv()` (the keep-mode wait). -/
inductive Call where
  | exec_lua (script : String)
  | command (text : String)
  | set_current_win
  | set_current_buf
  | recv
deriving DecidableEq

/-- A size/anchor expression appearing in the popup branch of
`create_split_command` (main.rs:275-325).  The Rust code represents these
directly as Lua source strings; `render` below reproduces those exact
strings, and `eval` gives their Lua value for an outer window of width `W`
and height `H` (Lua `/` is real division and `math.floor` floors once at
the end, so a ratio evaluates to `⌊((outer/2)*3)/(s+1)⌋`). -/
inductive SizeExpr where
  | outerW
  | outerH
  | zero
  | lit (n : Nat)
  | ratioW (s : Nat)
  | ratioH (s : Nat)
deriving DecidableEq

/-- The Lua source string of a `SizeExpr`, matching the `w_ratio` / `h_ratio`
closures and the `(w, h, o)` literals of the popup branch. -/
def SizeExpr.render : SizeExpr → String
  | .outerW => "w"
  | .outerH => "h"
  | .zero => "0"
  | .lit n => toString n
  | .ratioW s => "math.floor(((w / 2) * 3) / " ++ toString (s + 1) ++ ")"
  | .ratioH s => "math.floor(((h / 2) * 3) / " ++ toString (s + 1) ++ ")"

/-- The value of a `SizeExpr` for outer width `W` and height `H`, under Lua
arithmetic (real division, one final floor). -/
def SizeExpr.eval (W H : Nat) : SizeExpr → Nat
  | .outerW => W
  | .outerH => H
  | .zero => 0
  | .lit n => n
  | .ratioW s => Nat.floor ((((W : ℚ) / 2) * 3) / ((s : ℚ) + 1))
  | .ratioH s => Nat.floor ((((H : ℚ) / 2) * 3) / ((s : ℚ) + 1))

/-- `(width, height, row, col)` evaluated for a concrete outer size. -/
def eval4 (W H : Nat) (q : SizeExpr × SizeExpr × SizeExpr × SizeExpr) :
    Nat × Nat × Nat × Nat :=
  (q.1.eval W H, q.2.1.eval W H, q.2.2.1.eval W H, q.2.2.2.eval W H)

/-- The `(width, height, row, col)` selection of the popup branch of
`create_split_command` (main.rs:282-310); `none` is the `unreachable!()`
arm. -/
def popup_fields (o : SplitOptions) :
    Option (SizeExpr × SizeExpr × SizeExpr × SizeExpr) :=
  if o.split_right != 0 then
    some (.ratioW o.split_right, .outerH, .zero, .outerW)
  else if o.split_left != 0 then
    some (.ratioW o.split_left, .outerH, .zero, .zero)
  else if o.split_below != 0 then
    some (.outerW, .ratioH o.split_below, .outerH, .zero)
  else if o.split_above != 0 then
    some (.outerW, .ratioH o.split_above, .zero, .zero)
  else match o.split_right_cols with
  | some c => some (.lit c, .outerH, .zero, .outerW)
  | none => match o.split_left_cols with
    | some c => some (.lit c, .outerH, .zero, .zero)
    | none => match o.split_below_rows with
      | some r => some (.outerW, .lit r, .outerH, .zero)
      | none => match o.split_above_rows with
        | some r => some (.outerW, .lit r, .zero, .zero)
        | none => none

/-- The popup script of `create_split_command` (main.rs:312-325). -/
def render_popup (q : SizeExpr × SizeExpr × SizeExpr × SizeExpr) : String :=
  "local w = vim.api.nvim_win_get_width(0)\n" ++
  "local h = vim.api.nvim_win_get_height(0)\n" ++
  "local buf = vim.api.nvim_create_buf(true, false)\n" ++
  "local win = vim.api.nvim_open_win(buf, true, \x7b\n" ++
  "    relative = \x27editor\x27,\n" ++
  "    width = " ++ q.1.render ++ ",\n" ++
  "    height = " ++ q.2.1.render ++ ",\n" ++
  "    row = " ++ q.2.2.1.render ++ ",\n" ++
  "    col = " ++ q.2.2.2.render ++ "\n" ++
  "\x7d)\n" ++
  "vim.api.nvim_set_current_win(win)\n" ++
  "vim.api.nvim_win_set_option(win, \x27winblend\x27, 25)\n"

/-- The ratio size string of the non-popup branch (`w_ratio` at
main.rs:328): a Lua-expression spliced into the `vim.cmd` string. -/
def splice_ratio (axis : String) (s : Nat) : String :=
  "\x27 .. tostring(math.floor(((" ++ axis ++ " / 2) * 3) / " ++
    toString (s + 1) ++ ")) .. \x27"

/-- The `(direction, size, split, fix)` selection of the non-popup branch of
`create_split_command` (main.rs:331-363); `none` is the `unreachable!()`
arm. -/
def nonpopup_fields (o : SplitOptions) :
    Option (String × String × String × String) :=
  if o.split_right != 0 then
    some ("belowright", splice_ratio "w" o.split_right, "vsplit", "winfixwidth")
  else if o.split_left != 0 then
    some ("aboveleft", splice_ratio "w" o.split_left, "vsplit", "winfixwidth")
  else if o.split_below != 0 then
    some ("belowright", splice_ratio "h" o.split_below, "split", "winfixheight")
  else if o.split_above != 0 then
    some ("aboveleft", splice_ratio "h" o.split_above, "split", "winfixheight")
  else match o.split_right_cols with
  | some c => some ("belowright", toString c, "vsplit", "winfixwidth")
  | none => match o.split_left_cols with
    | some c => some ("aboveleft", toString c, "vsplit", "winfixwidth")
    | none => match o.split_below_rows with
      | some r => some ("belowright", toString r, "split", "winfixheight")
      | none => match o.split_above_rows with
        | some r => some ("aboveleft", toString r, "split", "winfixheight")
        | none => none

/-- The real-split script of `create_split_command` (main.rs:365-374). -/
def render_split (q : String × String × String × String) : String :=
  "local prev_win = vim.api.nvim_get_current_win()\n" ++
  "local w = vim.api.nvim_win_get_width(prev_win)\n" ++
  "local h = vim.api.nvim_win_get_height(prev_win)\n" ++
  "vim.cmd(\x27" ++ q.1 ++ " " ++ q.2.1 ++ q.2.2.1 ++ "\x27)\n" ++
  "local buf = vim.api.nvim_create_buf(true, false)\n" ++
  "vim.api.nvim_set_current_buf(buf)\n" ++
  "local win = vim.api.nvim_get_current_win()\n" ++
  "vim.api.nvim_win_set_option(win, \x27" ++ q.2.2.2 ++ "\x27, true)\n"

/-- `open_files::create_split_command` (main.rs:272-376): builds the Lua
layout script.  The `unreachable!()` panic taken when no sizing field is set
is modelled as `none`. -/
def create_split_command (o : SplitOptions) : Option String :=
  if o.popup then (popup_fields o).map render_popup
  else (nonpopup_fields o).map render_split

/-- How many of the eight sizing fields (four ratio, four absolute) are
set, for stating the split-request contract. -/
def sizing_fields_set (o : SplitOptions) : Nat :=
  (if o.split_right != 0 then 1 else 0) +
  (if o.split_left != 0 then 1 else 0) +
  (if o.split_below != 0 then 1 else 0) +
  (if o.split_above != 0 then 1 else 0) +
  (if o.split_right_cols.isSome then 1 else 0) +
  (if o.split_left_cols.isSome then 1 else 0) +
  (if o.split_below_rows.isSome then 1 else 0) +
  (if o.split_above_rows.isSome then 1 else 0)

/-- The per-file action block of `open_files::open_file` (main.rs:212-225):
after the buffer is opened, run at most one of follow / forward search /
backward search, chosen by the if-else-if chain. -/
def file_action (opt : Options) : List Call :=
  if opt.follow then [Call.command "norm! G"]
  else match opt.pattern with
  | some p => [Call.command ("norm! /" ++ p)]
  | none => match opt.pattern_backwards with
    | some q => [Call.command ("norm! ?" ++ q)]
    | none => []

/-- The autocmd registration script built by `open_file` under keep /
keep-until-write (main.rs:227-249). -/
def keep_hook_cmd (keep_until_write : Bool) (channel : Nat)
    (page_id : String) : String :=
  let bd := if keep_until_write
    then "vim.api.nvim_buf_delete(buf, \x7b force = true \x7d)" else ""
  let ev := if keep_until_write then "BufWritePost" else "BufDelete"
  "local buf = vim.api.nvim_get_current_buf()\n" ++
  "vim.api.nvim_create_autocmd(\x27" ++ ev ++ "\x27, \x7b\n" ++
  "    buffer = buf,\n" ++
  "    callback = function()\n" ++
  "        pcall(function()\n" ++
  "            " ++ bd ++ "\n" ++
  "            vim.rpcnotify(" ++ toString channel ++
    ", \x27page_buffer_closed\x27, \x27" ++ page_id ++ "\x27)\n" ++
  "        end)\n" ++
  "    end\n" ++
  "\x7d)\n"

/-- The RPC-call trace of `open_files::open_file` (main.rs:203-270) for one
candidate path `f`: open the buffer, at most one action, the lifecycle hook
registration under keep modes, the optional user lua and command, and
finally — still under keep modes — the blocking `conn.rx.recv()` wait. -/
def open_file_trace (opt : Options) (page_id : String) (channel : Nat)
    (f : String) : List Call :=
  [Call.command ("e " ++ f)] ++ file_action opt ++
  (if opt.keep || opt.keep_until_write then
    [Call.exec_lua (keep_hook_cmd opt.keep_until_write channel page_id)]
  else []) ++
  (match opt.lua with | some l => [Call.exec_lua l] | none => []) ++
  (match opt.command with | some c => [Call.command c] | none => []) ++
  (if opt.keep || opt.keep_until_write then [Call.recv] else [])

/-- The `FilesUsage::FilesProvided` loop of `open_files` (main.rs:119-129),
reduced to the list of `path_string`s actually passed to `open_file`:
each input is resolved against `$PWD`, classified, and skipped when it is
not text and `--open-non-text` is unset. -/
def provided_files_opened (openNonText : Bool) (pwdJoin : String → String)
    (isText : String → Bool) : List String → List String
  | [] => []
  | f :: rest =>
    let ps := pwdJoin f
    if !isText ps && !openNonText then
      provided_files_opened openNonText pwdJoin isText rest
    else
      ps :: provided_files_opened openNonText pwdJoin isText rest

/-- The `FilesUsage::RecursiveCurrentDir` loop (main.rs:75-91) reduced the
same way, over the walkdir traversal result. -/
def walk_files_opened (openNonText : Bool) (pwdJoin : String → String)
    (isText : String → Bool) : List String → List String
  | [] => []
  | f :: rest =>
    let ps := pwdJoin f
    if !isText ps && !openNonText then
      walk_files_opened openNonText pwdJoin isText rest
    else
      ps :: walk_files_opened openNonText pwdJoin isText rest

/-- The accumulator update of the `LastModifiedFile` loop (main.rs:106-112):
replace the remembered `(modified_time, file)` only on a strictly later
time. -/
def lm_step (acc : Option (Nat × String)) (x : Nat × String) :
    Option (Nat × String) :=
  match acc with
  | some (lt, lf) => if lt < x.1 then some x else some (lt, lf)
  | none => some x

/-- The `FilesUsage::LastModifiedFile` loop of `open_files`
(main.rs:92-113): scan the `read_dir` entries, skip candidates failing the
text filter, and keep the first-encountered entry with the maximum
modification time. -/
def last_modified_loop (openNonText : Bool) (pwdJoin : String → String)
    (isText : String → Bool) (mtimeOf : String → Nat)
    (acc : Option (Nat × String)) : List String → Option (Nat × String)
  | [] => acc
  | p :: rest =>
    let ps := pwdJoin p
    if !isText ps && !openNonText then
      last_modified_loop openNonText pwdJoin isText mtimeOf acc rest
    else
      last_modified_loop openNonText pwdJoin isText mtimeOf
        (lm_step acc (mtimeOf ps, ps)) rest

/-- The candidate selected by the `LastModifiedFile` branch, if any. -/
def last_modified_pick (openNonText : Bool) (fs : Fs) :
    Option (Nat × String) :=
  last_modified_loop openNonText fs.pwdJoin fs.isText fs.mtimeOf none
    fs.dirEntries

/-- The filter-passing `read_dir` entries as `(modified_time, path_string)`
pairs, in enumeration order: the candidates the `LastModifiedFile` loop
actually compares. -/
def text_passing (openNonText : Bool) (fs : Fs) : List (Nat × String) :=
  (fs.dirEntries.filter
    (fun p => fs.isText (fs.pwdJoin p) || openNonText)).map
    (fun p => (fs.mtimeOf (fs.pwdJoin p), fs.pwdJoin p))

/-- The split step at the top of `open_files` (main.rs:67-71): executed
whenever `opt.is_split_implied()` holds — the address-gated
`env_ctx.split_usage` is never consulted.  `none` models the
`unreachable!()` panic inside `create_split_command`. -/
def split_calls (opt : Options) : Option (List Call) :=
  if opt.is_split_implied then
    (create_split_command opt.split).map (fun cmd => [Call.exec_lua cmd])
  else some []

/-- The per-mode file-opening portion of `open_files` (main.rs:73-130). -/
def body_calls (env : EnvContext) (fs : Fs) (channel : Nat) : List Call :=
  match env.files_usage with
  | FilesUsage.RecursiveCurrentDir _ =>
    (walk_files_opened env.opt.open_non_text fs.pwdJoin fs.isText
      fs.walkEntries).flatMap (open_file_trace env.opt env.page_id channel)
  | FilesUsage.LastModifiedFile =>
    match last_modified_pick env.opt.open_non_text fs with
    | some (_, f) => open_file_trace env.opt env.page_id channel f
    | none => []
  | FilesUsage.FilesProvided =>
    (provided_files_opened env.opt.open_non_text fs.pwdJoin fs.isText
      env.opt.files).flatMap (open_file_trace env.opt env.page_id channel)

/-- The focus-restore epilogue of `open_files` (main.rs:132-143): run after
all candidates whenever back / back-restore is set, with no address check. -/
def restore_calls (opt : Options) : List Call :=
  if opt.back || opt.back_restore then
    [Call.set_current_win, Call.set_current_buf] ++
    (if opt.back_restore then [Call.command "norm! A"] else [])
  else []

/-- The full RPC-call trace of `open_files` (main.rs:65-144): optional split
script first, then the per-mode file loop, then the focus-restore epilogue.
`none` models a panic. -/
def open_files (env : EnvContext) (fs : Fs) (channel : Nat) :
    Option (List Call) :=
  (split_calls env.opt).map
    (fun sc => sc ++ body_calls env fs channel ++ restore_calls env.opt)

/-- The split warning text of `warn_if_incompatible_options`
(main.rs:30-34). -/
def split_warning : String :=
  "Split (-r -l -u -d -R -L -U -D) is ignored if address (-a or $NVIM) isn\x27t set"

/-- The switch-back warning text of `warn_if_incompatible_options`
(main.rs:36-42). -/
def back_warning : String :=
  "Switch back (-b -B) is ignored if address (-a or $NVIM) isn\x27t set"

/-- `main::warn_if_incompatible_options` (main.rs:24-43), as the list of
warnings logged. -/
def warn_if_incompatible_options (opt : Options) : List String :=
  if opt.address.isSome then []
  else
    (if opt.is_split_implied then [split_warning] else []) ++
    (if opt.back || opt.back_restore then [back_warning] else [])

/-- The keep-mode wait at the end of `open_file` (main.rs:264-268):
`match conn.rx.recv().await { _ => return }`.  The notification stream is
modelled from the spec as the list of correlation tokens of the pending
notifications followed, when `closed` holds, by channel closure (the spec
describes the connection layer as exposing the raw inbound
`(token, payload)` stream).  The wildcard match consumes the single next
`recv` outcome: the result is the number of notifications consumed before
the process advances, `none` meaning it stays suspended. -/
def keep_wait (msgs : List String) (closed : Bool) : Option Nat :=
  match msgs with
  | _ :: _ => some 1
  | [] => if closed then some 0 else none

/-- Modelled from the spec: the wait as the claim states it — skip
notifications until one whose token matches `page_id` arrives, resolving
also (as normal completion) when the channel closes. -/
def keep_wait_matching (page_id : String) (msgs : List String)
    (closed : Bool) : Option Nat :=
  match msgs with
  | m :: rest =>
    if m = page_id then some 1
    else (keep_wait_matching page_id rest closed).map (· + 1)
  | [] => if closed then some 0 else none

/-! ## Claim theorems -/

/-- Claim C6: selection-mode resolution obeys the precedence RecursiveWalk
(resolved recurse depth > 0, where an explicit `N` gives `N`, a bare flag
gives 1, absence gives 0) over Explicit (non-empty file list) over
MostRecentInCwd. -/
theorem C6_selection_precedence (files : List String)
    (rd : Option (Option Nat)) :
    resolve_recurse_depth none = 0 ∧
    resolve_recurse_depth (some none) = 1 ∧
    (∀ n, resolve_recurse_depth (some (some n)) = n) ∧
    resolve_files_usage files rd =
      (if 0 < resolve_recurse_depth rd then
        FilesUsage.RecursiveCurrentDir (resolve_recurse_depth rd)
      else if files ≠ [] then FilesUsage.FilesProvided
      else FilesUsage.LastModifiedFile) := by
  refine ⟨rfl, rfl, fun _ => rfl, ?_⟩
  simp only [resolve_files_usage]
  rcases files with _ | ⟨f, rest⟩ <;> simp

/-- Claim C3, as stated, is false: the Explicit branch of `open_files` drops
any input that the classifier marks non-text while `--open-non-text` is
unset, so the yield is not independent of the content-type classification.
Concretely, a single input classified non-text yields no candidate. -/
theorem C3_counterexample :
    provided_files_opened false id (fun _ => false) ["a"] = [] ∧
    provided_files_opened false id (fun _ => false) ["a"] ≠ ["a"].map id := by
  decide

/-- Claim C3 (amended): the Explicit file source yields exactly the
filter-passing inputs (those classified text, or all of them when
open-non-text is set), one candidate per passing input, in input order;
in particular with open-non-text set it yields one candidate per input,
in input order, independent of the classification. -/
theorem C3_explicit_order (openNonText : Bool) (pwdJoin : String → String)
    (isText : String → Bool) (files : List String) :
    provided_files_opened openNonText pwdJoin isText files =
      (files.filter
        (fun f => isText (pwdJoin f) || openNonText)).map pwdJoin ∧
    (openNonText = true →
      provided_files_opened openNonText pwdJoin isText files =
        files.map pwdJoin) := by
  have h1 : provided_files_opened openNonText pwdJoin isText files =
      (files.filter
        (fun f => isText (pwdJoin f) || openNonText)).map pwdJoin := by
    induction files with
    | nil => rfl
    | cons f rest ih =>
      simp only [provided_files_opened,
        (Bool.not_or (isText (pwdJoin f)) openNonText).symm]
      cases h : isText (pwdJoin f) || openNonText <;>
        simp [h, List.filter_cons, ih]
  refine ⟨h1, fun ho => ?_⟩
  subst ho
  rw [h1]
  simp

/-- Witness for C3_explicit_order at a concrete input. -/
theorem C3_explicit_order_witness :
    provided_files_opened true id (fun _ => false) ["a", "b"] =
      ["a", "b"].map id :=
  (C3_explicit_order true id (fun _ => false) ["a", "b"]).2 rfl

/-- Claim C8: for every opened candidate, after the buffer is opened by
path, at most one of the three per-file actions runs, chosen by the fixed
priority follow > pattern > pattern-backwards. -/
theorem C8_action_priority (opt : Options) :
    (file_action opt).length ≤ 1 ∧
    (opt.follow = true → file_action opt = [Call.command "norm! G"]) ∧
    (opt.follow = false → ∀ p, opt.pattern = some p →
      file_action opt = [Call.command ("norm! /" ++ p)]) ∧
    (opt.follow = false → opt.pattern = none →
      ∀ q, opt.pattern_backwards = some q →
      file_action opt = [Call.command ("norm! ?" ++ q)]) ∧
    (opt.follow = false → opt.pattern = none →
      opt.pattern_backwards = none → file_action opt = []) ∧
    (∀ page_id channel f, ∃ rest,
      open_file_trace opt page_id channel f =
        Call.command ("e " ++ f) :: rest) := by
  refine ⟨?_, fun hf => ?_, fun hf p hp => ?_, fun hf hp q hb => ?_,
    fun hf hp hb => ?_, fun page_id channel f => ⟨_, rfl⟩⟩
  · cases hf : opt.follow <;>
      rcases hp : opt.pattern with _ | p <;>
      rcases hb : opt.pattern_backwards with _ | q <;>
      simp [file_action, hf, hp, hb]
  · simp [file_action, hf]
  · simp [file_action, hf, hp]
  · simp [file_action, hf, hp, hb]
  · simp [file_action, hf, hp, hb]

/-- Options exercising C8: follow set together with a pattern. -/
def c8opt : Options :=
  { optionsNone with follow := true, pattern := some "x" }

/-- Witness for C8_action_priority: with both follow and a pattern set,
only the follow action runs. -/
theorem C8_action_priority_witness :
    file_action c8opt = [Call.command "norm! G"] :=
  (C8_action_priority c8opt).2.1 rfl

/-- Claim C2, as stated, is false: the keep-mode wait
(`match conn.rx.recv().await { _ => return }`) never inspects the
correlation token, so a pending notification whose token differs from the
run's session id still resolves the wait, where the claimed behaviour
would keep blocking. -/
theorem C2_counterexample :
    keep_wait ["other"] false = some 1 ∧
    keep_wait_matching "sid" ["other"] false = none := by
  decide

/-- Claim C2 (amended): under keep / keep-until-write the blocking receive
is the last step of the per-file trace (the process does not advance
before it), and it consumes exactly one notification of any kind — without
checking the correlation token — or resolves as normal completion when
the channel closes; this coincides with the claimed matching-token wait
precisely when every delivered notification carries the run's session id. -/
theorem C2_wait_last_and_untagged (opt : Options) (page_id f : String)
    (channel : Nat) (msgs : List String) (closed : Bool)
    (hk : opt.keep = true ∨ opt.keep_until_write = true)
    (hm : ∀ m ∈ msgs, m = page_id) :
    (open_file_trace opt page_id channel f).getLast? = some Call.recv ∧
    keep_wait msgs closed = keep_wait_matching page_id msgs closed := by
  have hcond : (opt.keep || opt.keep_until_write) = true := by
    rcases hk with h | h <;> simp [h]
  constructor
  · simp only [open_file_trace, hcond, if_pos]
    exact List.getLast?_concat _
  · induction msgs with
    | nil => rfl
    | cons m rest ih =>
      have hm0 : m = page_id := hm m (List.mem_cons_self m rest)
      simp [keep_wait, keep_wait_matching, hm0]

/-- Options exercising C2: keep mode. -/
def c2opt : Options := { optionsNone with keep := true }

/-- Witness for C2_wait_last_and_untagged at a concrete input where the
single pending notification does match the session id. -/
theorem C2_wait_last_and_untagged_witness :
    (open_file_trace c2opt "sid" 3 "f").getLast? = some Call.recv ∧
    keep_wait ["sid"] true = keep_wait_matching "sid" ["sid"] true :=
  C2_wait_last_and_untagged c2opt "sid" "f" 3 ["sid"] true (Or.inl rfl)
    (by decide)

/-- `Option.map` preserves `isSome`. -/
lemma isSome_map_eq {α β : Type} (f : α → β) (x : Option α) :
    (Option.map f x).isSome = x.isSome := by
  cases x <;> rfl

/-- The popup branch selects a field quadruple exactly when some sizing
field is set. -/
lemma popup_fields_isSome (o : SplitOptions) :
    (popup_fields o).isSome = true ↔
      (o.split_right ≠ 0 ∨ o.split_left ≠ 0 ∨ o.split_below ≠ 0 ∨
        o.split_above ≠ 0 ∨ o.split_right_cols ≠ none ∨
        o.split_left_cols ≠ none ∨ o.split_below_rows ≠ none ∨
        o.split_above_rows ≠ none) := by
  unfold popup_fields
  split_ifs with h1 h2 h3 h4 <;> simp_all <;>
    rcases hrc : o.split_right_cols with _ | c1 <;>
    rcases hlc : o.split_left_cols with _ | c2 <;>
    rcases hbr : o.split_below_rows with _ | c3 <;>
    rcases har : o.split_above_rows with _ | c4 <;>
    simp_all

/-- The real-split branch selects a field quadruple exactly when some
sizing field is set. -/
lemma nonpopup_fields_isSome (o : SplitOptions) :
    (nonpopup_fields o).isSome = true ↔
      (o.split_right ≠ 0 ∨ o.split_left ≠ 0 ∨ o.split_below ≠ 0 ∨
        o.split_above ≠ 0 ∨ o.split_right_cols ≠ none ∨
        o.split_left_cols ≠ none ∨ o.split_below_rows ≠ none ∨
        o.split_above_rows ≠ none) := by
  unfold nonpopup_fields
  split_ifs with h1 h2 h3 h4 <;> simp_all <;>
    rcases hrc : o.split_right_cols with _ | c1 <;>
    rcases hlc : o.split_left_cols with _ | c2 <;>
    rcases hbr : o.split_below_rows with _ | c3 <;>
    rcases har : o.split_above_rows with _ | c4 <;>
    simp_all

/-- The sizing count is positive exactly when some sizing field is set. -/
lemma sizing_fields_set_pos (o : SplitOptions) :
    0 < sizing_fields_set o ↔
      (o.split_right ≠ 0 ∨ o.split_left ≠ 0 ∨ o.split_below ≠ 0 ∨
        o.split_above ≠ 0 ∨ o.split_right_cols ≠ none ∨
        o.split_left_cols ≠ none ∨ o.split_below_rows ≠ none ∨
        o.split_above_rows ≠ none) := by
  rcases o with ⟨p, r, l, b, a, rc, lc, br, ar⟩
  simp only [sizing_fields_set]
  rcases rc with _ | c1 <;> rcases lc with _ | c2 <;>
    rcases br with _ | c3 <;> rcases ar with _ | c4 <;>
    by_cases hr : r = 0 <;> by_cases hl : l = 0 <;>
    by_cases hb : b = 0 <;> by_cases ha : a = 0 <;>
    simp [hr, hl, hb, ha]

/-- A split request with two sizing fields set (split-right level 1 and
split-left level 1). -/
def c4opt : SplitOptions :=
  { splitNone with split_right := 1, split_left := 1 }

/-- Claim C4, as stated, is false on the multiple-fields side: with two
sizing fields set, `create_split_command` does not fail — the first branch
of its fixed priority order wins and a script is returned. -/
theorem C4_counterexample :
    sizing_fields_set c4opt = 2 ∧ create_split_command c4opt ≠ none := by
  constructor
  · decide
  · simp [create_split_command, c4opt, nonpopup_fields, splitNone]

/-- Claim C4 (amended): the planner fails (the `unreachable!()` panic,
modelled as `none`) exactly when zero sizing fields are set; whenever at
least one is set — including more than one, where the highest-priority set
field wins — it returns a layout script without error. -/
theorem C4_script_iff_sizing (o : SplitOptions) :
    (create_split_command o).isSome = true ↔ 0 < sizing_fields_set o := by
  rw [sizing_fields_set_pos]
  cases hp : o.popup with
  | false =>
    have hc : create_split_command o = (nonpopup_fields o).map render_split := by
      unfold create_split_command
      rw [hp]
      simp
    rw [hc, isSome_map_eq]
    exact nonpopup_fields_isSome o
  | true =>
    have hc : create_split_command o = (popup_fields o).map render_popup := by
      unfold create_split_command
      rw [hp]
      simp
    rw [hc, isSome_map_eq]
    exact popup_fields_isSome o

/-- A popup split request with split-right level 1. -/
def c7opt : SplitOptions :=
  { splitNone with popup := true, split_right := 1 }

/-- Claim C7: for every popup split request with split_right = N > 0, the
planned popup layout has width `floor(((W/2)*3)/(N+1))` (Lua real division,
one final floor — equal to `3*W/(2*(N+1))` in integer division), height the
full outer height, row anchor 0, and column anchor W. -/
theorem C7_popup_right_geometry (o : SplitOptions) (N W H : Nat)
    (hp : o.popup = true) (hr : o.split_right = N) (hN : 0 < N) :
    (create_split_command o).isSome = true ∧
    (popup_fields o).map (eval4 W H) =
      some (Nat.floor ((((W : ℚ) / 2) * 3) / ((N : ℚ) + 1)), H, 0, W) ∧
    Nat.floor ((((W : ℚ) / 2) * 3) / ((N : ℚ) + 1)) =
      3 * W / (2 * (N + 1)) := by
  have hne : (N != 0) = true := by
    simpa using Nat.pos_iff_ne_zero.mp hN
  have hfields : popup_fields o =
      some (SizeExpr.ratioW N, SizeExpr.outerH, SizeExpr.zero,
        SizeExpr.outerW) := by
    unfold popup_fields
    rw [hr, if_pos hne]
  have hfloor : Nat.floor ((((W : ℚ) / 2) * 3) / ((N : ℚ) + 1)) =
      3 * W / (2 * (N + 1)) := by
    have hq : (((W : ℚ) / 2) * 3) / ((N : ℚ) + 1) =
        ((3 * W : ℕ) : ℚ) / ((2 * (N + 1) : ℕ) : ℚ) := by
      have hN1 : ((N : ℚ) + 1) ≠ 0 := by positivity
      push_cast
      field_simp
      ring
    rw [hq, Nat.floor_div_nat, Nat.floor_natCast]
  refine ⟨?_, ?_, hfloor⟩
  · simp [create_split_command, hp, hfields]
  · rw [hfields]
    simp [eval4, SizeExpr.eval]

/-- Witness for C7_popup_right_geometry with N = 1, outer size 10 x 5. -/
theorem C7_popup_right_geometry_witness :
    (create_split_command c7opt).isSome = true ∧
    (popup_fields c7opt).map (eval4 10 5) =
      some (Nat.floor (((((10 : ℕ) : ℚ) / 2) * 3) / (((1 : ℕ) : ℚ) + 1)),
        5, 0, 10) ∧
    Nat.floor (((((10 : ℕ) : ℚ) / 2) * 3) / (((1 : ℕ) : ℚ) + 1)) =
      3 * 10 / (2 * (1 + 1)) :=
  C7_popup_right_geometry c7opt 1 10 5 rfl rfl (by decide)


/-- Does a trace start with a `exec_lua` call (the split script)? -/
def head_is_exec_lua : Option (List Call) → Bool
  | some (Call.exec_lua _ :: _) => true
  | _ => false

/-- Options of a run with no address anywhere, one explicit file, and a
split flag (`-r 2`). -/
def c1opt : Options :=
  { optionsNone with
    address := resolve_address none none
    files := ["file.txt"]
    split := { splitNone with split_right := 2 } }

/-- The run context `gather_env::enter` derives for `c1opt`. -/
def c1env : EnvContext :=
  { opt := c1opt
    files_usage := resolve_files_usage ["file.txt"] none
    page_id := "p1"
    split_usage := resolve_split_usage c1opt }

/-- A filesystem in which every path is text. -/
def c1fs : Fs :=
  { pwdJoin := id, isText := fun _ => true, mtimeOf := fun _ => 0
    walkEntries := [], dirEntries := [] }

/-- Claim C1 names a code bug: with no address set (no option, no
environment fallback) but a split flag given, the context resolver derives
`SplitUsage::Disabled` and the startup warning describes the split flags as
ignored — yet `open_files` tests `opt.is_split_implied()` instead of the
derived `split_usage`, so the very first RPC call of the run is still the
split script. -/
theorem C1_split_applied_without_address :
    c1opt.address = none ∧
    c1env.split_usage = SplitUsage.Disabled ∧
    split_warning ∈ warn_if_incompatible_options c1opt ∧
    head_is_exec_lua (open_files c1env c1fs 7) = true := by
  refine ⟨rfl, rfl, ?_, rfl⟩
  simp [warn_if_incompatible_options, c1opt, optionsNone, resolve_address,
    Options.is_split_implied, splitNone]

/-- A run context with back set, no address, one explicit file. -/
def c9env : EnvContext :=
  { opt := { optionsNone with back := true, files := ["a"] }
    files_usage := FilesUsage.FilesProvided
    page_id := "p9"
    split_usage := SplitUsage.Disabled }

/-- A filesystem for the C9 witness. -/
def c9fs : Fs :=
  { pwdJoin := id, isText := fun _ => true, mtimeOf := fun _ => 0
    walkEntries := [], dirEntries := [] }

/-- Claim C9: when back or back-restore is set and no address is set, the
startup warning calls the flags ignored, yet `open_files` still appends the
focus-restore step (switch to initial window and buffer, plus `norm! A`
when back-restore is set) after all candidates — the address is never
consulted. -/
theorem C9_back_restore_without_address (env : EnvContext) (fs : Fs)
    (channel : Nat)
    (hb : env.opt.back = true ∨ env.opt.back_restore = true)
    (ha : env.opt.address = none) :
    back_warning ∈ warn_if_incompatible_options env.opt ∧
    open_files env fs channel = (split_calls env.opt).map
      (fun sc => sc ++ body_calls env fs channel ++
        ([Call.set_current_win, Call.set_current_buf] ++
          (if env.opt.back_restore then [Call.command "norm! A"]
            else []))) := by
  have hcond : (env.opt.back || env.opt.back_restore) = true := by
    rcases hb with h | h <;> simp [h]
  constructor
  · simp [warn_if_incompatible_options, ha, hcond]
  · simp only [open_files, restore_calls, hcond, if_pos]

/-- Witness for C9_back_restore_without_address at a concrete run. -/
theorem C9_back_restore_without_address_witness :
    back_warning ∈ warn_if_incompatible_options c9env.opt ∧
    open_files c9env c9fs 7 = (split_calls c9env.opt).map
      (fun sc => sc ++ body_calls c9env c9fs 7 ++
        ([Call.set_current_win, Call.set_current_buf] ++
          (if c9env.opt.back_restore then [Call.command "norm! A"]
            else []))) :=
  C9_back_restore_without_address c9env c9fs 7 (Or.inl rfl) rfl

/-- When every `read_dir` entry fails the candidate filter, the
last-modified loop never touches its accumulator. -/
lemma last_modified_loop_skip_all (openNonText : Bool)
    (pwdJoin : String → String) (isText : String → Bool)
    (mtimeOf : String → Nat) (acc : Option (Nat × String))
    (l : List String) (ho : openNonText = false)
    (h : ∀ p ∈ l, isText (pwdJoin p) = false) :
    last_modified_loop openNonText pwdJoin isText mtimeOf acc l = acc := by
  subst ho
  induction l with
  | nil => rfl
  | cons p rest ih =>
    have h1 := h p (List.mem_cons_self p rest)
    simp only [last_modified_loop, h1]
    rw [if_pos (by simp)]
    exact ih (fun q hq => h q (List.mem_cons_of_mem p hq))

/-- A run context in MostRecentInCwd mode, back set, everything else off. -/
def c10env : EnvContext :=
  { opt := { optionsNone with back := true }
    files_usage := FilesUsage.LastModifiedFile
    page_id := "p10"
    split_usage := SplitUsage.Disabled }

/-- A filesystem whose working directory holds one non-text child. -/
def c10fs : Fs :=
  { pwdJoin := id, isText := fun _ => false, mtimeOf := fun _ => 0
    walkEntries := [], dirEntries := ["blob.bin"] }

/-- Claim C10: in MostRecentInCwd mode, when no immediate child of the
working directory passes the candidate filter, no buffer is opened at all
and the run proceeds normally (no panic) straight to the focus-restore
step. -/
theorem C10_no_candidate_proceeds (env : EnvContext) (fs : Fs)
    (channel : Nat)
    (hu : env.files_usage = FilesUsage.LastModifiedFile)
    (hs : env.opt.is_split_implied = false)
    (ho : env.opt.open_non_text = false)
    (ht : ∀ p ∈ fs.dirEntries, fs.isText (fs.pwdJoin p) = false) :
    last_modified_pick env.opt.open_non_text fs = none ∧
    open_files env fs channel = some (restore_calls env.opt) := by
  have hpick : last_modified_pick env.opt.open_non_text fs = none := by
    unfold last_modified_pick
    exact last_modified_loop_skip_all _ _ _ _ _ _ ho ht
  refine ⟨hpick, ?_⟩
  simp [open_files, split_calls, hs, body_calls, hu, hpick]

/-- Witness for C10_no_candidate_proceeds at a concrete run. -/
theorem C10_no_candidate_proceeds_witness :
    last_modified_pick c10env.opt.open_non_text c10fs = none ∧
    open_files c10env c10fs 7 = some (restore_calls c10env.opt) :=
  C10_no_candidate_proceeds c10env c10fs 7 rfl rfl rfl
    (fun p _ => rfl)


/-- `lm_step` never yields `none`. -/
lemma lm_step_ne_none (acc : Option (Nat × String)) (x : Nat × String) :
    lm_step acc x ≠ none := by
  rcases acc with _ | ⟨lt, lf⟩
  · simp [lm_step]
  · by_cases h : lt < x.1 <;> simp [lm_step, h]

/-- `lm_step` yields an entry at least as recent as both its inputs. -/
lemma lm_step_spec (acc : Option (Nat × String)) (x : Nat × String) :
    ∃ a, lm_step acc x = some a ∧ x.1 ≤ a.1 ∧
      ∀ b, acc = some b → b.1 ≤ a.1 := by
  rcases acc with _ | ⟨lt, lf⟩
  · refine ⟨x, rfl, le_refl _, ?_⟩
    intro b hb
    cases hb
  · by_cases h : lt < x.1
    · refine ⟨x, by simp [lm_step, h], le_refl _, ?_⟩
      intro b hb
      injection hb with hb
      subst hb
      exact le_of_lt h
    · refine ⟨(lt, lf), by simp [lm_step, h], le_of_not_lt h, ?_⟩
      intro b hb
      injection hb with hb
      subst hb
      exact le_refl _

/-- Folding `lm_step` from a non-empty accumulator never yields `none`. -/
lemma lm_foldl_ne_none (xs : List (Nat × String)) :
    ∀ acc, acc ≠ none → xs.foldl lm_step acc ≠ none := by
  induction xs with
  | nil => intro acc h; exact h
  | cons x rest ih =>
    intro acc _
    exact ih (lm_step acc x) (lm_step_ne_none acc x)

/-- Folding `lm_step` from `none` yields `none` exactly on the empty list. -/
lemma lm_foldl_none_iff (xs : List (Nat × String)) :
    xs.foldl lm_step none = none ↔ xs = [] := by
  cases xs with
  | nil => simp
  | cons x rest =>
    have h := lm_foldl_ne_none rest (lm_step none x) (lm_step_ne_none none x)
    simp [List.foldl_cons, h]

/-- The fold result dominates every list entry and the accumulator. -/
lemma lm_foldl_ge (xs : List (Nat × String)) :
    ∀ acc m, xs.foldl lm_step acc = some m →
      (∀ x ∈ xs, x.1 ≤ m.1) ∧ (∀ b, acc = some b → b.1 ≤ m.1) := by
  induction xs with
  | nil =>
    intro acc m hm
    refine ⟨fun x hx => absurd hx (List.not_mem_nil x), ?_⟩
    intro b hb
    rw [hb] at hm
    injection hm with hm
    subst hm
    exact le_refl _
  | cons x rest ih =>
    intro acc m hm
    simp only [List.foldl_cons] at hm
    obtain ⟨hrest, hacc⟩ := ih (lm_step acc x) m hm
    obtain ⟨a, ha, hxa, hba⟩ := lm_step_spec acc x
    have ham : a.1 ≤ m.1 := hacc a ha
    refine ⟨?_, fun b hb => le_trans (hba b hb) ham⟩
    intro y hy
    rcases List.mem_cons.mp hy with rfl | hy
    · exact le_trans hxa ham
    · exact hrest y hy

/-- The fold result is the accumulator or a list entry. -/
lemma lm_foldl_mem (xs : List (Nat × String)) :
    ∀ acc m, xs.foldl lm_step acc = some m → acc = some m ∨ m ∈ xs := by
  induction xs with
  | nil => intro acc m hm; exact Or.inl hm
  | cons x rest ih =>
    intro acc m hm
    simp only [List.foldl_cons] at hm
    rcases ih (lm_step acc x) m hm with h | h
    · rcases acc with _ | ⟨lt, lf⟩
      · simp only [lm_step] at h
        injection h with h
        exact Or.inr (h ▸ List.mem_cons_self x rest)
      · simp only [lm_step] at h
        by_cases hlt : lt < x.1
        · rw [if_pos hlt] at h
          injection h with h
          exact Or.inr (h ▸ List.mem_cons_self x rest)
        · rw [if_neg hlt] at h
          exact Or.inl h
    · exact Or.inr (List.mem_cons_of_mem x h)

/-- An accumulator dominating the whole list survives the fold: later
entries with merely equal times never replace it. -/
lemma lm_foldl_keep (m : Nat × String) :
    ∀ xs : List (Nat × String), (∀ x ∈ xs, x.1 ≤ m.1) →
      xs.foldl lm_step (some m) = some m := by
  intro xs
  induction xs with
  | nil => intro _; rfl
  | cons x rest ih =>
    intro h
    have hx := h x (List.mem_cons_self x rest)
    have hstep : lm_step (some m) x = some m := by
      obtain ⟨mt, mf⟩ := m
      simp only [lm_step]
      rw [if_neg (not_lt.mpr hx)]
    simp only [List.foldl_cons, hstep]
    exact ih (fun y hy => h y (List.mem_cons_of_mem x hy))

/-- First-encountered-max wins: if everything before `m` is strictly older
and nothing after is strictly newer, the fold picks `m`. -/
lemma lm_foldl_first (m : Nat × String) :
    ∀ (pre : List (Nat × String)) (acc : Option (Nat × String)),
      (∀ p ∈ pre, p.1 < m.1) →
      (acc = none ∨ ∃ a, acc = some a ∧ a.1 < m.1) →
      ∀ post, (∀ x ∈ post, x.1 ≤ m.1) →
      (pre ++ m :: post).foldl lm_step acc = some m := by
  intro pre
  induction pre with
  | nil =>
    intro acc _ hacc post hpost
    simp only [List.nil_append, List.foldl_cons]
    have hstep : lm_step acc m = some m := by
      rcases hacc with rfl | ⟨a, rfl, ha⟩
      · rfl
      · obtain ⟨t1, f1⟩ := a
        simp only [lm_step]
        rw [if_pos ha]
    rw [hstep]
    exact lm_foldl_keep m post hpost
  | cons p pre ih =>
    intro acc hpre hacc post hpost
    simp only [List.cons_append, List.foldl_cons]
    refine ih (lm_step acc p)
      (fun q hq => hpre q (List.mem_cons_of_mem p hq)) ?_ post hpost
    have hp := hpre p (List.mem_cons_self p pre)
    rcases hacc with rfl | ⟨a, rfl, ha⟩
    · exact Or.inr ⟨p, rfl, hp⟩
    · obtain ⟨t1, f1⟩ := a
      by_cases hlt : t1 < p.1
      · exact Or.inr ⟨p, by simp [lm_step, hlt], hp⟩
      · exact Or.inr ⟨(t1, f1), by simp [lm_step, hlt], ha⟩

/-- The `LastModifiedFile` loop is the fold of `lm_step` over the
filter-passing `(mtime, path)` pairs in enumeration order. -/
lemma last_modified_loop_eq_foldl (openNonText : Bool)
    (pwdJoin : String → String) (isText : String → Bool)
    (mtimeOf : String → Nat) :
    ∀ (l : List String) (acc : Option (Nat × String)),
      last_modified_loop openNonText pwdJoin isText mtimeOf acc l =
        ((l.filter (fun p => isText (pwdJoin p) || openNonText)).map
          (fun p => (mtimeOf (pwdJoin p), pwdJoin p))).foldl lm_step acc := by
  intro l
  induction l with
  | nil => intro acc; rfl
  | cons p rest ih =>
    intro acc
    simp only [last_modified_loop,
      (Bool.not_or (isText (pwdJoin p)) openNonText).symm]
    cases h : isText (pwdJoin p) || openNonText
    · rw [if_pos (show (!false) = true from rfl)]
      simp [List.filter_cons, h, ih]
    · rw [if_neg (by simp)]
      simp [List.filter_cons, h, ih, List.foldl_cons]

/-- `last_modified_pick` as a fold over `text_passing`. -/
lemma last_modified_pick_eq_foldl (openNonText : Bool) (fs : Fs) :
    last_modified_pick openNonText fs =
      (text_passing openNonText fs).foldl lm_step none := by
  unfold last_modified_pick text_passing
  exact last_modified_loop_eq_foldl openNonText fs.pwdJoin fs.isText
    fs.mtimeOf fs.dirEntries none

/-- Claim C5: in MostRecentInCwd mode the file source yields at most one
candidate (`Option`); it yields one exactly when some child passes the
filter; any yielded candidate is a filter-passing child whose modification
time dominates all others — strictly, when the passing children have
pairwise distinct times — and on equal timestamps the first-encountered
entry in enumeration order wins. -/
theorem C5_last_modified_max (openNonText : Bool) (fs : Fs) :
    (last_modified_pick openNonText fs = none ↔
      text_passing openNonText fs = []) ∧
    (∀ m, last_modified_pick openNonText fs = some m →
      m ∈ text_passing openNonText fs ∧
      ∀ x ∈ text_passing openNonText fs, x.1 ≤ m.1) ∧
    ((text_passing openNonText fs).Pairwise (fun a b => a.1 ≠ b.1) →
      ∀ m, last_modified_pick openNonText fs = some m →
        ∀ x ∈ text_passing openNonText fs, x ≠ m → x.1 < m.1) ∧
    (∀ pre m post, text_passing openNonText fs = pre ++ m :: post →
      (∀ p ∈ pre, p.1 < m.1) → (∀ x ∈ post, x.1 ≤ m.1) →
      last_modified_pick openNonText fs = some m) := by
  have hfold := last_modified_pick_eq_foldl openNonText fs
  refine ⟨?_, ?_, ?_, ?_⟩
  · rw [hfold]
    exact lm_foldl_none_iff _
  · intro m hm
    rw [hfold] at hm
    rcases lm_foldl_mem _ none m hm with h | h
    · exact Option.noConfusion h
    · exact ⟨h, (lm_foldl_ge _ none m hm).1⟩
  · intro hpw m hm x hx hne
    rw [hfold] at hm
    have hle := (lm_foldl_ge _ none m hm).1 x hx
    have hmem : m ∈ text_passing openNonText fs := by
      rcases lm_foldl_mem _ none m hm with h | h
      · exact Option.noConfusion h
      · exact h
    have hsym : Symmetric (fun a b : Nat × String => a.1 ≠ b.1) :=
      fun a b hab => hab.symm
    have hneq : x.1 ≠ m.1 := hpw.forall hsym hx hmem hne
    exact lt_of_le_of_ne hle hneq
  · intro pre m post heq hpre hpost
    rw [hfold, heq]
    exact lm_foldl_first m pre none hpre (Or.inl rfl) post hpost

/-- A working directory with three text children of modification times
1, 3, 2 in enumeration order. -/
def c5fs : Fs :=
  { pwdJoin := id
    isText := fun _ => true
    mtimeOf := fun p => if p = "b" then 3 else if p = "c" then 2 else 1
    walkEntries := []
    dirEntries := ["a", "b", "c"] }

/-- Witness for C5_last_modified_max: the yielded candidate is the child
with the maximum modification time. -/
theorem C5_last_modified_max_witness :
    last_modified_pick false c5fs = some (3, "b") :=
  (C5_last_modified_max false c5fs).2.2.2 [(1, "a")] (3, "b") [(2, "c")]
    (by decide) (by decide) (by decide)

end NvimPage
